import Mathlib

/-!
Verification of the fetch-rs event-bridging and message-model layer
(`src/lib/fetch-event.ts`, `src/lib/server.ts`) as a shallow embedding.

JavaScript `Map<string,string>` is embedded as an insertion-ordered
association list; `Buffer` contents are embedded by their UTF-8 character
content (`Bytes := String`, since the layer only ever creates buffers from
strings or forwards them opaquely); JS exceptions become an explicit
`JsError` sum; methods that mutate `this` become state-passing functions
returning the result together with the updated object.
-/

namespace FetchRs

/-- Byte payloads, embedded by their UTF-8 character content
(`Buffer.from(s)` is the identity injection, `buf.toString("utf-8")` its
inverse; no code in this layer inspects raw bytes any other way). -/
abbrev Bytes := String

/-- The left brace character, kept out of string literals. -/
def lbrace : Char := Char.ofNat 123

/-- The right brace character. -/
def rbrace : Char := Char.ofNat 125

/-- Embedding of `String.prototype.toLowerCase` over the ASCII range the
header code relies on, defined by structural recursion on the character
list so the kernel can evaluate it on concrete inputs. -/
def strLower (s : String) : String := ⟨s.data.map Char.toLower⟩

/-- Wire-level header record (the `JsHeader` shape sent to the transport). -/
structure JsHeader where
  name : String
  value : String
deriving DecidableEq, Repr

/-- JS exceptions thrown by this layer, by constructor and message. -/
inductive JsError where
  | typeError (msg : String)
  | rangeError (msg : String)
  | plainError (msg : String)
  | syntaxError (msg : String)
deriving DecidableEq, Repr

/-- `Map.prototype.get`: the value stored at `k`, if any. -/
def mapGet (m : List (String × String)) (k : String) : Option String :=
  match m.find? (fun kv => kv.1 = k) with
  | some kv => some kv.2
  | none => none

/-- `Map.prototype.set`: update in place preserving insertion order when `k`
is present, append otherwise. -/
def mapSet (m : List (String × String)) (k v : String) : List (String × String) :=
  if m.any (fun kv => kv.1 = k) then
    m.map (fun kv => if kv.1 = k then (k, v) else kv)
  else
    m ++ [(k, v)]

/-- `Map.prototype.delete`: remove the entry at `k`, keeping the rest in order. -/
def mapDelete (m : List (String × String)) (k : String) : List (String × String) :=
  m.filter (fun kv => ¬ kv.1 = k)

/-- `Map.prototype.has`. -/
def mapHas (m : List (String × String)) (k : String) : Bool :=
  m.any (fun kv => kv.1 = k)

/-- The `Headers` class: its private `Map<string,string>` as an ordered list. -/
structure Headers where
  entries : List (String × String)
deriving DecidableEq, Repr

/-- The union of init shapes the `Headers` constructor accepts. -/
inductive HeadersInit where
  | record (ps : List (String × String))
  | pairs (ps : List (String × String))
  | headerPairs (ps : List JsHeader)
  | headers (h : Headers)

/-- `Headers.prototype.set`: store under the lower-cased name. -/
def Headers.set (h : Headers) (name value : String) : Headers :=
  ⟨mapSet h.entries (strLower name) value⟩

/-- `Headers.prototype.get`: look up the lower-cased name (`?? null` becomes
`Option`). -/
def Headers.get (h : Headers) (name : String) : Option String :=
  mapGet h.entries (strLower name)

/-- `Headers.prototype.has`. -/
def Headers.has (h : Headers) (name : String) : Bool :=
  mapHas h.entries (strLower name)

/-- `Headers.prototype.delete`. -/
def Headers.delete (h : Headers) (name : String) : Headers :=
  ⟨mapDelete h.entries (strLower name)⟩

/-- `Headers.prototype.append`: the source tests `if (existing)`, which is JS
truthiness, so an existing *empty-string* value takes the absent branch. -/
def Headers.append (h : Headers) (name value : String) : Headers :=
  match mapGet h.entries (strLower name) with
  | some existing =>
      if existing = "" then ⟨mapSet h.entries (strLower name) value⟩
      else ⟨mapSet h.entries (strLower name) (existing ++ ", " ++ value)⟩
  | none => ⟨mapSet h.entries (strLower name) value⟩

/-- The `Headers` constructor: every accepted init shape is folded into the
map with `set(lowercased key, value)` semantics (later entries overwrite). -/
def Headers.ofInit (init : HeadersInit) : Headers :=
  match init with
  | .record ps => ⟨ps.foldl (fun m p => mapSet m (strLower p.1) p.2) []⟩
  | .pairs ps => ⟨ps.foldl (fun m p => mapSet m (strLower p.1) p.2) []⟩
  | .headerPairs ps => ⟨ps.foldl (fun m p => mapSet m (strLower p.name) p.value) []⟩
  | .headers h => ⟨h.entries.foldl (fun m p => mapSet m (strLower p.1) p.2) []⟩

/-- `new Headers(init?)` with the optional argument. -/
def Headers.ofInitOpt (init : Option HeadersInit) : Headers :=
  match init with
  | none => ⟨[]⟩
  | some i => Headers.ofInit i

/-- `Headers.prototype.toArray`: the entries as ordered tuples. -/
def Headers.toArray (h : Headers) : List (String × String) :=
  h.entries

/-- `Headers.prototype.toJsHeaders`: the entries as ordered `{name, value}`
records for the transport. -/
def Headers.toJsHeaders (h : Headers) : List JsHeader :=
  h.entries.map (fun kv => ⟨kv.1, kv.2⟩)

/-- Well-formedness maintained by every `Headers` operation: stored keys are
lower-case, and no key occurs twice (the `Map` invariant). -/
def Headers.WellFormed (h : Headers) : Prop :=
  (∀ kv ∈ h.entries, strLower kv.1 = kv.1) ∧ (h.entries.map Prod.fst).Nodup

/-!
### JSON

`Response.json` serializes with the platform's `JSON.stringify` and the body
accessors parse with `JSON.parse`. Both builtins are embedded here over the
value fragment this layer produces: null, booleans, integers, strings
(escaping `"` and `\`), arrays and objects.
-/

/-- A JSON value (numbers restricted to the integer fragment). -/
inductive Json where
  | null
  | bool (b : Bool)
  | num (n : Int)
  | str (s : String)
  | arr (elems : List Json)
  | obj (members : List (String × Json))

/-- The character for a single decimal digit. -/
def digitChar (d : Nat) : Char := Char.ofNat (48 + d)

/-- Decimal characters of a natural number, most significant first
(fuel-structural so the kernel can evaluate it; `natChars` supplies
enough fuel). -/
def natCharsAux (fuel n : Nat) : List Char :=
  match fuel with
  | 0 => []
  | fuel + 1 =>
    if n < 10 then [digitChar n]
    else natCharsAux fuel (n / 10) ++ [digitChar (n % 10)]

/-- Decimal characters of a natural number, most significant first. -/
def natChars (n : Nat) : List Char := natCharsAux (n + 1) n

/-- Decimal characters of an integer (optional leading minus). -/
def numChars (n : Int) : List Char :=
  if n < 0 then '-' :: natChars n.natAbs else natChars n.natAbs

/-- `JSON.stringify` escaping of one string character (the fragment used
here: `"` and `\`; other characters pass through). -/
def escChar (c : Char) : List Char :=
  if c = '"' ∨ c = '\\' then ['\\', c] else [c]

/-- A serialized JSON string literal: quote, escaped characters, quote. -/
def strKey (s : String) : List Char :=
  '"' :: (s.data.flatMap escChar ++ ['"'])

mutual
/-- `JSON.stringify` of a value, as a character list (no whitespace). -/
def strVal : Json → List Char
  | .null => 'n' :: 'u' :: 'l' :: 'l' :: []
  | .bool true => 't' :: 'r' :: 'u' :: 'e' :: []
  | .bool false => 'f' :: 'a' :: 'l' :: 's' :: 'e' :: []
  | .num n => numChars n
  | .str s => strKey s
  | .arr [] => '[' :: ']' :: []
  | .arr (x :: xs) => '[' :: (strVal x ++ strItems xs ++ [']'])
  | .obj [] => lbrace :: rbrace :: []
  | .obj (m :: ms) => lbrace :: (strPair m ++ strPairs ms ++ [rbrace])

/-- The `,`-prefixed continuation of an array's serialized elements. -/
def strItems : List Json → List Char
  | [] => []
  | x :: xs => ',' :: (strVal x ++ strItems xs)

/-- One serialized object member: `"key":value`. -/
def strPair : String × Json → List Char
  | (k, v) => strKey k ++ ':' :: strVal v

/-- The `,`-prefixed continuation of an object's serialized members. -/
def strPairs : List (String × Json) → List Char
  | [] => []
  | m :: ms => ',' :: (strPair m ++ strPairs ms)
end

/-- `JSON.stringify` of a value, as a string. -/
def jsonStringify (v : Json) : String := ⟨strVal v⟩

/-- JSON insignificant whitespace. -/
def jsonWs (c : Char) : Bool :=
  c == ' ' || c == '\t' || c == '\n' || c == '\r'

/-- Drop leading insignificant whitespace. -/
def skipWs (cs : List Char) : List Char := cs.dropWhile jsonWs

/-- Parse the body of a string literal (after the opening quote), undoing
the escaping; fails on a bad escape or a missing closing quote. -/
def readStr : List Char → Option (List Char × List Char)
  | [] => none
  | c :: rest =>
    if c = '"' then some ([], rest)
    else if c = '\\' then
      match rest with
      | [] => none
      | e :: rest2 =>
        if e = '"' ∨ e = '\\' then
          (readStr rest2).map (fun p => (e :: p.1, p.2))
        else none
    else (readStr rest).map (fun p => (c :: p.1, p.2))

/-- Numeric value of a digit character. -/
def digitVal (c : Char) : Nat := c.toNat - 48

/-- The natural number denoted by a digit run (most significant first). -/
def chNat (ds : List Char) : Nat :=
  ds.foldl (fun a c => a * 10 + digitVal c) 0

/-- Parse a nonempty digit run into a natural number. -/
def readNat (cs : List Char) : Option (Nat × List Char) :=
  let ds := cs.takeWhile Char.isDigit
  if ds.isEmpty then none else some (chNat ds, cs.dropWhile Char.isDigit)

/-- Parse an integer: optional minus sign, then a digit run. -/
def readNumber (cs : List Char) : Option (Int × List Char) :=
  match cs with
  | [] => none
  | c :: rest =>
    if c = '-' then (readNat rest).map (fun p => (-(p.1 : Int), p.2))
    else (readNat (c :: rest)).map (fun p => ((p.1 : Int), p.2))

mutual
/-- Parse one JSON value (fuel-bounded recursion; each recursive step
spends one unit, and `jsonParse` supplies more fuel than the input length). -/
def parseValue : Nat → List Char → Option (Json × List Char)
  | 0, _ => none
  | fuel + 1, cs =>
    match skipWs cs with
    | [] => none
    | c :: r =>
      if c = 'n' then
        match r with
        | 'u' :: 'l' :: 'l' :: r2 => some (.null, r2)
        | _ => none
      else if c = 't' then
        match r with
        | 'r' :: 'u' :: 'e' :: r2 => some (.bool true, r2)
        | _ => none
      else if c = 'f' then
        match r with
        | 'a' :: 'l' :: 's' :: 'e' :: r2 => some (.bool false, r2)
        | _ => none
      else if c = '"' then
        (readStr r).map (fun p => (Json.str ⟨p.1⟩, p.2))
      else if c = '[' then
        if (skipWs r).head? = some ']' then some (.arr [], (skipWs r).tail)
        else (parseItems fuel (skipWs r)).map (fun p => (Json.arr p.1, p.2))
      else if c = lbrace then
        if (skipWs r).head? = some rbrace then some (.obj [], (skipWs r).tail)
        else (parsePairs fuel (skipWs r)).map (fun p => (Json.obj p.1, p.2))
      else
        (readNumber (c :: r)).map (fun p => (Json.num p.1, p.2))

/-- Parse the comma-separated elements of a nonempty array, through `]`. -/
def parseItems : Nat → List Char → Option (List Json × List Char)
  | 0, _ => none
  | fuel + 1, cs =>
    match parseValue fuel cs with
    | none => none
    | some (v, r) =>
      match skipWs r with
      | [] => none
      | c :: r2 =>
        if c = ',' then (parseItems fuel r2).map (fun p => (v :: p.1, p.2))
        else if c = ']' then some ([v], r2)
        else none

/-- Parse the comma-separated members of a nonempty object, through the
closing brace. -/
def parsePairs : Nat → List Char → Option (List (String × Json) × List Char)
  | 0, _ => none
  | fuel + 1, cs =>
    match skipWs cs with
    | [] => none
    | c :: r =>
      if c = '"' then
        match readStr r with
        | none => none
        | some (k, r1) =>
          match skipWs r1 with
          | [] => none
          | c2 :: r2 =>
            if c2 = ':' then
              match parseValue fuel r2 with
              | none => none
              | some (v, r3) =>
                match skipWs r3 with
                | [] => none
                | c3 :: r4 =>
                  if c3 = ',' then
                    (parsePairs fuel r4).map (fun p => ((⟨k⟩, v) :: p.1, p.2))
                  else if c3 = rbrace then some ([(⟨k⟩, v)], r4)
                  else none
            else none
      else none
end

/-- `JSON.parse`, over the embedded fragment: a complete value with no
trailing characters (beyond whitespace); `none` models the thrown
`SyntaxError`. -/
def jsonParse (s : String) : Option Json :=
  match parseValue (s.data.length + 1) s.data with
  | some (v, r) => if skipWs r = [] then some v else none
  | none => none

/-!
### Request and Response

Both carry immutable metadata, an optional body buffer (`_body`) and a
`_bodyUsed` flag. Accessors that mutate `this` are state-passing: they
return the outcome (`Except JsError α` for a possibly-throwing method)
together with the updated object, so a thrown error still records the
mutations made before the throw (needed for `json()`'s parse failure).
-/

/-- The `BodyInit` union: a string, or an already-materialized buffer
(`Buffer` / `ArrayBuffer` / `Uint8Array`, all of which the constructors copy
into a `Buffer`). The distinction matters because JS truthiness treats an
empty string as falsy but any buffer object as truthy. -/
inductive BodyInit where
  | str (s : String)
  | buf (b : Bytes)
deriving DecidableEq, Repr

/-- `RequestInit`. -/
structure RequestInit where
  method : Option String := none
  headers : Option HeadersInit := none
  body : Option BodyInit := none

/-- The `Request` class. -/
structure Request where
  method : String
  url : String
  headers : Headers
  body : Option Bytes
  bodyUsed : Bool
deriving DecidableEq, Repr

/-- `new Request(url, init?)` (the string/URL branch of the constructor).
`init?.body ? Buffer.from(init.body) : null` tests truthiness, so a
passed-in empty string yields a null body while an empty buffer is kept. -/
def Request.new (url : String) (init : RequestInit := {}) : Request :=
  { method := init.method.getD "GET"
    url := url
    headers := Headers.ofInitOpt init.headers
    body :=
      match init.body with
      | none => none
      | some (.str s) => if s = "" then none else some s
      | some (.buf b) => some b
    bodyUsed := false }

/-- `new Request(request, init?)` (the `input instanceof Request` branch):
method/url/headers copied (or overridden), and the same body bytes shared
without the consumed flag. -/
def Request.ofRequest (input : Request) (init : RequestInit := {}) : Request :=
  { method := init.method.getD input.method
    url := input.url
    headers := Headers.ofInit (init.headers.getD (.headers input.headers))
    body := input.body
    bodyUsed := false }

/-- `Request.prototype.text`: check the consumed flag, set it, then decode
the bytes (empty string when absent). -/
def Request.text (r : Request) : Except JsError String × Request :=
  if r.bodyUsed then (.error (.typeError "Body has already been consumed"), r)
  else
    let r2 := { r with bodyUsed := true }
    match r.body with
    | none => (.ok "", r2)
    | some b => (.ok b, r2)

/-- `Request.prototype.arrayBuffer`: an independent copy of the bytes
(empty when absent); marks consumed. -/
def Request.arrayBuffer (r : Request) : Except JsError Bytes × Request :=
  if r.bodyUsed then (.error (.typeError "Body has already been consumed"), r)
  else
    let r2 := { r with bodyUsed := true }
    match r.body with
    | none => (.ok "", r2)
    | some b => (.ok b, r2)

/-- `Request.prototype.blob`: the bytes wrapped as a blob; marks consumed. -/
def Request.blob (r : Request) : Except JsError Bytes × Request :=
  if r.bodyUsed then (.error (.typeError "Body has already been consumed"), r)
  else
    let r2 := { r with bodyUsed := true }
    match r.body with
    | none => (.ok "", r2)
    | some b => (.ok b, r2)

/-- `Request.prototype.json`: `text()` (which may throw the consumption
error, and on success marks consumed) then `JSON.parse` (whose failure is a
`SyntaxError` thrown *after* the flag was set). -/
def Request.json (r : Request) : Except JsError Json × Request :=
  match r.text with
  | (.error e, r2) => (.error e, r2)
  | (.ok s, r2) =>
    match jsonParse s with
    | some v => (.ok v, r2)
    | none => (.error (.syntaxError "Unexpected token in JSON"), r2)

/-- `Request.prototype.formData`: always throws, does not mark consumed. -/
def Request.formData (r : Request) : Except JsError Unit × Request :=
  (.error (.plainError "FormData parsing not yet implemented"), r)

/-- `Request.prototype.clone`: fails once consumed; otherwise re-runs the
constructor on the same url/method/headers and the body bytes
(`this._body ?? undefined`). -/
def Request.clone (r : Request) : Except JsError Request :=
  if r.bodyUsed then
    .error (.typeError "Cannot clone a Request whose body has been used")
  else
    .ok (Request.new r.url
      { method := some r.method
        headers := some (.headers r.headers)
        body := r.body.map .buf })

/-- The transport-level exchange descriptor (`RequestContext`). -/
structure RequestContext where
  method : String
  url : String
  headers : List JsHeader
  body : Option Bytes
  clientAddress : String

/-- `Request._fromContext`: construct from url/method/headers, then assign
the raw context body directly (bypassing the constructor's truthiness
test, so an empty buffer is kept as-is). -/
def Request.fromContext (ctx : RequestContext) : Request :=
  let r := Request.new ctx.url
    { method := some ctx.method, headers := some (.headerPairs ctx.headers) }
  { r with body := ctx.body }

/-- `ResponseInit`. -/
structure ResponseInit where
  status : Option Nat := none
  statusText : Option String := none
  headers : Option HeadersInit := none

/-- The `Response` class. -/
structure Response where
  status : Nat
  statusText : String
  headers : Headers
  body : Option Bytes
  bodyUsed : Bool
deriving DecidableEq, Repr

/-- `new Response(body?, init?)`: status defaults 200, statusText "OK";
a string body (even empty) becomes a buffer, a buffer body is kept, a
null/undefined body stays null. -/
def Response.new (body : Option BodyInit := none) (init : ResponseInit := {}) : Response :=
  { status := init.status.getD 200
    statusText := init.statusText.getD "OK"
    headers := Headers.ofInitOpt init.headers
    body :=
      match body with
      | none => none
      | some (.str s) => some s
      | some (.buf b) => some b
    bodyUsed := false }

/-- `Response.prototype.ok`: status in [200, 300). -/
def Response.ok (r : Response) : Bool :=
  200 ≤ r.status && r.status < 300

/-- `Response.prototype.text`. -/
def Response.text (r : Response) : Except JsError String × Response :=
  if r.bodyUsed then (.error (.typeError "Body has already been consumed"), r)
  else
    let r2 := { r with bodyUsed := true }
    match r.body with
    | none => (.ok "", r2)
    | some b => (.ok b, r2)

/-- `Response.prototype.arrayBuffer`. -/
def Response.arrayBuffer (r : Response) : Except JsError Bytes × Response :=
  if r.bodyUsed then (.error (.typeError "Body has already been consumed"), r)
  else
    let r2 := { r with bodyUsed := true }
    match r.body with
    | none => (.ok "", r2)
    | some b => (.ok b, r2)

/-- `Response.prototype.blob`. -/
def Response.blob (r : Response) : Except JsError Bytes × Response :=
  if r.bodyUsed then (.error (.typeError "Body has already been consumed"), r)
  else
    let r2 := { r with bodyUsed := true }
    match r.body with
    | none => (.ok "", r2)
    | some b => (.ok b, r2)

/-- `Response.prototype.json`: `text()` then `JSON.parse`. -/
def Response.json (r : Response) : Except JsError Json × Response :=
  match r.text with
  | (.error e, r2) => (.error e, r2)
  | (.ok s, r2) =>
    match jsonParse s with
    | some v => (.ok v, r2)
    | none => (.error (.syntaxError "Unexpected token in JSON"), r2)

/-- `Response.prototype.formData`: always throws, does not mark consumed. -/
def Response.formData (r : Response) : Except JsError Unit × Response :=
  (.error (.plainError "FormData parsing not yet implemented"), r)

/-- `Response.prototype.clone`: fails once consumed; otherwise re-runs the
constructor on the same body buffer and metadata. -/
def Response.clone (r : Response) : Except JsError Response :=
  if r.bodyUsed then
    .error (.typeError "Cannot clone a Response whose body has been used")
  else
    .ok (Response.new (r.body.map .buf)
      { status := some r.status
        statusText := some r.statusText
        headers := some (.headers r.headers) })

/-- `Response.json(data, init?)` (static): serialize `data`, merge the
caller's headers, then force `content-type: application/json` *after* the
merge, and construct with the spread init plus those headers. -/
def Response.jsonOf (data : Json) (init : ResponseInit := {}) : Response :=
  let body := jsonStringify data
  let headers := (Headers.ofInitOpt init.headers).set "content-type" "application/json"
  Response.new (some (.str body))
    { init with headers := some (.headers headers) }

/-- `Response.redirect(url, status = 302)` (static): validate the status
against {301, 302, 303, 307, 308} before constructing anything; on an
invalid status throw a `RangeError`. -/
def Response.redirect (url : String) (status : Nat := 302) : Except JsError Response :=
  if status = 301 ∨ status = 302 ∨ status = 303 ∨ status = 307 ∨ status = 308 then
    .ok (Response.new none
      { status := some status, headers := some (.record [("location", url)]) })
  else
    .error (.rangeError ("Invalid redirect status: " ++ toString status))

/-- `Response.error()` (static): status 0, empty body, no headers. -/
def Response.error : Response :=
  Response.new none { status := some 0 }

/-- The wire-level `JsResponse` shape handed to the transport. -/
structure JsResponse where
  status : Nat
  headers : List JsHeader
  body : Option Bytes
deriving DecidableEq, Repr

/-- `Response._toJsResponse`: status, ordered header records, and the raw
body bytes (`?? undefined`). The source method only reads `this`, so the
embedding is a pure function: it cannot change `_bodyUsed`. -/
def Response.toJsResponse (r : Response) : JsResponse :=
  { status := r.status
    headers := r.headers.toJsHeaders
    body := r.body }

/-!
### FetchEvent

The per-exchange bridge. Its reply sink (`_respondCallback`) is embedded as
a function returning `Option String`: `none` for a successful transport
handoff, `some m` for the sink throwing an error with message `m`. The
promise argument of `respondWith` is embedded by its eventual settlement
(`SettledOutcome`), and the then/catch continuation becomes `settle`, which
returns the ordered list of sink invocations it performs. Being a total
function, `settle` also witnesses that a sink failure never propagates.
-/

/-- How the `respondWith` argument eventually settles: a resolved
`Response`, or a rejection carrying an error message. -/
inductive SettledOutcome where
  | ok (res : Response)
  | err (msg : String)

/-- The `FetchEvent` class. -/
structure FetchEvent where
  request : Request
  clientAddress : String
  responded : Bool
  respondCallback : JsResponse → Option String
  waitUntilCount : Nat

/-- `new FetchEvent(request, clientAddress, respondCallback)`. -/
def FetchEvent.new (request : Request) (clientAddress : String)
    (respondCallback : JsResponse → Option String) : FetchEvent :=
  { request := request
    clientAddress := clientAddress
    responded := false
    respondCallback := respondCallback
    waitUntilCount := 0 }

/-- The synchronous prefix of `respondWith`: throw if `_responded` is
already set, otherwise set it — no suspension point in between, and no
sink invocation occurs before the registered continuation runs. -/
def FetchEvent.respondWithSync (ev : FetchEvent) : Except JsError FetchEvent :=
  if ev.responded then .error (.plainError "respondWith() has already been called")
  else .ok { ev with responded := true }

/-- The then/catch continuation of `respondWith`, lines 410-431 of
`fetch-event.ts`: on success send the wire response (and if that sink call
throws, the catch — running with `responseSent` still false — sends a
synthetic 500 built from the sink's own error, its failure only logged);
on rejection send a synthetic 500 built from the rejection message, any
sink failure caught and logged. Returns the ordered sink invocations. -/
def FetchEvent.settle (ev : FetchEvent) (outcome : SettledOutcome) : List JsResponse :=
  match outcome with
  | .ok res =>
    match ev.respondCallback res.toJsResponse with
    | none => [res.toJsResponse]
    | some sinkMsg =>
      [res.toJsResponse,
       (Response.new (some (.str ("Internal Server Error: " ++ sinkMsg)))
         { status := some 500 }).toJsResponse]
  | .err m =>
    [(Response.new (some (.str ("Internal Server Error: " ++ m)))
       { status := some 500 }).toJsResponse]

/-- `FetchEvent.prototype.respondWith`: the synchronous check-and-set,
then the settlement continuation. The `Except` error is the synchronous
throw; an `.ok` result carries the updated event and the sink invocations
the continuation eventually performs. -/
def FetchEvent.respondWith (ev : FetchEvent) (outcome : SettledOutcome) :
    Except JsError (FetchEvent × List JsResponse) :=
  match ev.respondWithSync with
  | .error e => .error e
  | .ok ev2 => .ok (ev2, ev2.settle outcome)

/-- `FetchEvent.prototype.waitUntil`: record the promise; never throws. -/
def FetchEvent.waitUntil (ev : FetchEvent) : FetchEvent :=
  { ev with waitUntilCount := ev.waitUntilCount + 1 }

/-- `FetchEvent._fromContext`: wrap the translated request, the peer
address, and a closure forwarding to `ctx.respond`. -/
def FetchEvent.fromContext (ctx : RequestContext)
    (respond : JsResponse → Option String) : FetchEvent :=
  FetchEvent.new (Request.fromContext ctx) ctx.clientAddress respond

/-!
### Dispatch facade (`server.ts`)

The per-exchange callback loops over the registered handlers in order,
wrapping each synchronous invocation in try/catch so a throwing handler is
logged and the loop continues. A handler is embedded as a function from
the event's current state to a possible thrown message plus the event's
updated state (mutations made before a throw persist).
-/

/-- A registered fetch handler: acts on the event, possibly throwing. -/
abbrev Handler := FetchEvent → Option String × FetchEvent

/-- The dispatch loop of `Server.listen`'s `setHandler` callback: invoke
every handler in registration order on the threaded event, recording for
each the event state it was passed and the caught thrown message (if any);
returns the trace and the final event state. -/
def dispatchTrace : List Handler → FetchEvent → List (FetchEvent × Option String) × FetchEvent
  | [], ev => ([], ev)
  | h :: hs, ev =>
    ((ev, (h ev).1) :: (dispatchTrace hs ((h ev).2)).1,
     (dispatchTrace hs ((h ev).2)).2)

/-!
### Observers used to state the claims

These do not model new source code; they only package the accessors above
so the claims quantify over them uniformly.
-/

/-- The four body-materializing accessors the consumption claims range over. -/
inductive Accessor where
  | text
  | arrayBuffer
  | blob
  | json
deriving DecidableEq, Repr

/-- The result of one accessor call, outcome erased to success/failure plus
the error; paired with the updated message state. -/
def Request.invoke (r : Request) : Accessor → Except JsError Unit × Request
  | .text => ((r.text).1.map (fun _ => ()), (r.text).2)
  | .arrayBuffer => ((r.arrayBuffer).1.map (fun _ => ()), (r.arrayBuffer).2)
  | .blob => ((r.blob).1.map (fun _ => ()), (r.blob).2)
  | .json => ((r.json).1.map (fun _ => ()), (r.json).2)

/-- `Response` analogue of `Request.invoke`. -/
def Response.invoke (r : Response) : Accessor → Except JsError Unit × Response
  | .text => ((r.text).1.map (fun _ => ()), (r.text).2)
  | .arrayBuffer => ((r.arrayBuffer).1.map (fun _ => ()), (r.arrayBuffer).2)
  | .blob => ((r.blob).1.map (fun _ => ()), (r.blob).2)
  | .json => ((r.json).1.map (fun _ => ()), (r.json).2)

/-- Run a sequence of accessor calls on a request, collecting each call's
success flag. -/
def Request.runCalls : Request → List Accessor → List Bool × Request
  | r, [] => ([], r)
  | r, a :: as' =>
    (((r.invoke a).1).isOk :: (((r.invoke a).2).runCalls as').1,
     (((r.invoke a).2).runCalls as').2)

/-- `Response` analogue of `Request.runCalls`. -/
def Response.runCalls : Response → List Accessor → List Bool × Response
  | r, [] => ([], r)
  | r, a :: as' =>
    (((r.invoke a).1).isOk :: (((r.invoke a).2).runCalls as').1,
     (((r.invoke a).2).runCalls as').2)

/-- The text `text()` would decode: the body bytes, or `""` when absent. -/
def Request.bodyText (r : Request) : String := r.body.getD ""

/-- The text `text()` would decode, for a response. -/
def Response.bodyText (r : Response) : String := r.body.getD ""

/-- Raw-list form of `Headers.WellFormed`. -/
def entsWF (m : List (String × String)) : Prop :=
  (∀ kv ∈ m, strLower kv.1 = kv.1) ∧ (m.map Prod.fst).Nodup

/-- A list that cannot extend a digit run: empty, or headed by a
non-digit (every separator the serializer emits qualifies). -/
def noDigitHead : List Char → Bool
  | [] => true
  | c :: _ => !c.isDigit

/-!
## Theorems

Helper lemmas first (characters, the map embedding, header
well-formedness, the JSON codec), then one theorem per claim, each with
its witness where the statement carries hypotheses.
-/

/-- Lower-casing a character is idempotent. -/
theorem char_toLower_idem (c : Char) : c.toLower.toLower = c.toLower := by
  simp only [Char.toLower]
  by_cases h : c.toNat ≥ 65 ∧ c.toNat ≤ 90
  · rw [if_pos h]
    have hv : (c.toNat + 32).isValidChar := Or.inl (by omega)
    have ht : (Char.ofNat (c.toNat + 32)).toNat = c.toNat + 32 := by
      simp [Char.ofNat, hv]; rfl
    rw [if_neg (by rw [ht]; omega)]
  · rw [if_neg h, if_neg h]

/-- Lower-casing a string is idempotent. -/
theorem strLower_idem (s : String) : strLower (strLower s) = strLower s := by
  unfold strLower
  refine congrArg String.mk ?_
  rw [List.map_map]
  exact List.map_congr_left (fun c _ => char_toLower_idem c)

/-- Looking up the key just stored finds the stored value. -/
theorem mapGet_mapSet_self (m : List (String × String)) (k v : String) :
    mapGet (mapSet m k v) k = some v := by
  unfold mapSet
  by_cases hm : m.any (fun kv => kv.1 = k)
  · rw [if_pos hm]
    induction m with
    | nil => simp at hm
    | cons kv t ih =>
      by_cases hk : kv.1 = k
      · simp [mapGet, List.find?, hk]
      · have ht : t.any (fun kv => kv.1 = k) := by
          simpa [List.any_cons, hk] using hm
        simpa [mapGet, List.find?, hk] using ih ht
  · rw [if_neg hm]
    induction m with
    | nil => simp [mapGet, List.find?]
    | cons kv t ih =>
      have hk : ¬ kv.1 = k := fun hkk => hm (by simp [List.any_cons, hkk])
      have ht : ¬ t.any (fun kv => kv.1 = k) := fun htt => hm (by simp [List.any_cons, htt])
      simpa [mapGet, List.find?, hk] using ih ht

/-- `mapSet` does not change the key sequence when the key is present, and
appends the key otherwise. -/
theorem keys_mapSet (m : List (String × String)) (k v : String) :
    (mapSet m k v).map Prod.fst =
      (if m.any (fun kv => kv.1 = k) then m.map Prod.fst else m.map Prod.fst ++ [k]) := by
  unfold mapSet
  by_cases hm : m.any (fun kv => kv.1 = k)
  · rw [if_pos hm, if_pos hm, List.map_map]
    refine List.map_congr_left (fun kv _ => ?_)
    by_cases hk : kv.1 = k <;> simp [hk]
  · rw [if_neg hm, if_neg hm]
    simp

/-- Storing under a lower-cased key preserves well-formedness. -/
theorem entsWF_mapSet {m : List (String × String)} (hm : entsWF m) (s v : String) :
    entsWF (mapSet m (strLower s) v) := by
  obtain ⟨hlow, hnd⟩ := hm
  constructor
  · intro kv hkv
    unfold mapSet at hkv
    by_cases hany : m.any (fun kv => kv.1 = strLower s)
    · rw [if_pos hany] at hkv
      obtain ⟨kv0, hkv0m, hkv0⟩ := List.mem_map.mp hkv
      by_cases hk : kv0.1 = strLower s
      · rw [if_pos hk] at hkv0
        rw [← hkv0]
        exact strLower_idem s
      · rw [if_neg hk] at hkv0
        exact hkv0 ▸ hlow kv0 hkv0m
    · rw [if_neg hany] at hkv
      rcases List.mem_append.mp hkv with hin | hin
      · exact hlow kv hin
      · rw [List.mem_singleton.mp hin]
        exact strLower_idem s
  · rw [keys_mapSet]
    by_cases hany : m.any (fun kv => kv.1 = strLower s)
    · rwa [if_pos hany]
    · rw [if_neg hany]
      have hnotin : strLower s ∉ m.map Prod.fst := by
        intro hmem
        obtain ⟨kv0, hkv0m, hkv0⟩ := List.mem_map.mp hmem
        exact hany (List.any_eq_true.mpr ⟨kv0, hkv0m, by simp [hkv0]⟩)
      rw [List.nodup_append]
      refine ⟨hnd, List.nodup_singleton _, ?_⟩
      intro a ha hmem
      rw [List.mem_singleton] at hmem
      exact hnotin (hmem ▸ ha)

/-- Folding lower-cased `set`s over any pair list preserves well-formedness. -/
theorem entsWF_foldl (ps : List (String × String)) :
    ∀ {m : List (String × String)}, entsWF m →
      entsWF (ps.foldl (fun m p => mapSet m (strLower p.1) p.2) m) := by
  induction ps with
  | nil => intro m hm; exact hm
  | cons p t ih => intro m hm; exact ih (entsWF_mapSet hm p.1 p.2)

/-- The empty map is well-formed. -/
theorem entsWF_nil : entsWF [] := ⟨by simp, by simp⟩

/-- Every constructed `Headers` is well-formed. -/
theorem wf_ofInit (init : HeadersInit) : (Headers.ofInit init).WellFormed := by
  cases init with
  | record ps => exact entsWF_foldl ps entsWF_nil
  | pairs ps => exact entsWF_foldl ps entsWF_nil
  | headerPairs ps =>
    show entsWF (ps.foldl (fun m p => mapSet m (strLower p.name) p.value) [])
    have heq : ps.foldl (fun m p => mapSet m (strLower p.name) p.value) []
        = (ps.map (fun jh => (jh.name, jh.value))).foldl
            (fun m p => mapSet m (strLower p.1) p.2) [] := by
      rw [List.foldl_map]
    rw [heq]
    exact entsWF_foldl _ entsWF_nil
  | headers h => exact entsWF_foldl h.entries entsWF_nil

/-- `Headers.ofInitOpt` always yields a well-formed collection. -/
theorem wf_ofInitOpt (init : Option HeadersInit) : (Headers.ofInitOpt init).WellFormed := by
  cases init with
  | none => exact entsWF_nil
  | some i => exact wf_ofInit i

/-- `set` preserves well-formedness. -/
theorem wf_set {h : Headers} (hw : h.WellFormed) (n v : String) :
    (h.set n v).WellFormed :=
  entsWF_mapSet hw n v

/-- Rebuilding a well-formed map by folded lower-cased `set`s over its own
entries reproduces it exactly (the `new Headers(headersInstance)` copy). -/
theorem foldl_copy_eq :
    ∀ (m acc : List (String × String)),
      (∀ kv ∈ m, strLower kv.1 = kv.1) → ((acc ++ m).map Prod.fst).Nodup →
      m.foldl (fun a p => mapSet a (strLower p.1) p.2) acc = acc ++ m := by
  intro m
  induction m with
  | nil => intro acc _ _; simp
  | cons kv t ih =>
    intro acc hlow hnd
    have hkv : strLower kv.1 = kv.1 := hlow kv (by simp)
    have hnotin : kv.1 ∉ acc.map Prod.fst := by
      intro hmem
      rw [List.map_append] at hnd
      have := (List.nodup_append.mp hnd).2.2
      exact this hmem (by simp)
    have hany : ¬ acc.any (fun p => p.1 = kv.1) := by
      intro hcontra
      obtain ⟨p, hp, hpe⟩ := List.any_eq_true.mp hcontra
      exact hnotin (List.mem_map.mpr ⟨p, hp, by simpa using hpe⟩)
    have hstep : mapSet acc (strLower kv.1) kv.2 = acc ++ [kv] := by
      rw [hkv]
      unfold mapSet
      rw [if_neg hany]
    rw [List.foldl_cons, hstep]
    have hre : acc ++ kv :: t = (acc ++ [kv]) ++ t := by simp
    rw [hre] at hnd ⊢
    exact ih (acc ++ [kv]) (fun p hp => hlow p (by simp [hp])) hnd

/-- Copying a well-formed `Headers` reproduces the same entries. -/
theorem ofInit_headers_eq {h : Headers} (hw : h.WellFormed) :
    Headers.ofInit (.headers h) = h := by
  obtain ⟨hlow, hnd⟩ := hw
  show (⟨h.entries.foldl (fun m p => mapSet m (strLower p.1) p.2) []⟩ : Headers) = h
  rw [foldl_copy_eq h.entries [] hlow (by simpa using hnd)]
  rw [List.nil_append]

/-- C6 counterexample: with a present *empty-string* value the source's
truthiness test (`if (existing)`) takes the absent branch, so `append`
replaces instead of joining: on `x: ""`, `append("x", "v2")` yields
`"v2"`, not the `", v2"` the claim requires. -/
theorem C6_counterexample :
    ((Headers.ofInit (.record [("x", "")])).append "x" "v2").get "x" = some "v2"
    ∧ ("v2" : String) ≠ "" ++ ", " ++ "v2" := by
  constructor
  · rfl
  · decide

/-- C6 (amended): `append` on an absent name behaves as `set`; on a present
*non-empty* value `v1` it joins to `v1 ++ ", " ++ v2`; on a present
empty-string value it behaves as `set` as well (the truthiness quirk). -/
theorem C6_append_semantics (h : Headers) (n v : String) :
    (h.get n = none → h.append n v = h.set n v)
    ∧ (h.get n = some "" → h.append n v = h.set n v)
    ∧ (∀ v1, h.get n = some v1 → v1 ≠ "" →
        (h.append n v).get n = some (v1 ++ ", " ++ v)) := by
  refine ⟨?_, ?_, ?_⟩
  · intro hab
    unfold Headers.append
    rw [show mapGet h.entries (strLower n) = none from hab]
    rfl
  · intro hemp
    unfold Headers.append
    rw [show mapGet h.entries (strLower n) = some "" from hemp]
    rfl
  · intro v1 hpres hne
    unfold Headers.append
    rw [show mapGet h.entries (strLower n) = some v1 from hpres]
    show (if v1 = "" then (⟨mapSet h.entries (strLower n) v⟩ : Headers)
          else ⟨mapSet h.entries (strLower n) (v1 ++ ", " ++ v)⟩).get n
        = some (v1 ++ ", " ++ v)
    rw [if_neg hne]
    show mapGet (mapSet h.entries (strLower n) (v1 ++ ", " ++ v)) (strLower n) = _
    rw [mapGet_mapSet_self]

/-- C6 witness: `a: 1` then `append("A", "2")` (case-insensitive lookup)
yields `a: "1, 2"`. -/
theorem C6_witness :
    ((Headers.ofInit (.record [("a", "1")])).append "A" "2").get "A"
      = some ("1" ++ ", " ++ "2") :=
  (C6_append_semantics (Headers.ofInit (.record [("a", "1")])) "A" "2").2.2 "1"
    (by decide) (by decide)

/-!
### Body capsule: single consumption (C3, C10, C4)
-/

/-- A fresh `text()` yields the decoded body and marks consumed. -/
theorem req_text_fresh (r : Request) (hu : r.bodyUsed = false) :
    r.text = (.ok r.bodyText, { r with bodyUsed := true }) := by
  cases hb : r.body <;> simp [Request.text, Request.bodyText, hu, hb]

/-- A fresh `arrayBuffer()` yields the body bytes and marks consumed. -/
theorem req_arrayBuffer_fresh (r : Request) (hu : r.bodyUsed = false) :
    r.arrayBuffer = (.ok r.bodyText, { r with bodyUsed := true }) := by
  cases hb : r.body <;> simp [Request.arrayBuffer, Request.bodyText, hu, hb]

/-- A fresh `blob()` yields the body bytes and marks consumed. -/
theorem req_blob_fresh (r : Request) (hu : r.bodyUsed = false) :
    r.blob = (.ok r.bodyText, { r with bodyUsed := true }) := by
  cases hb : r.body <;> simp [Request.blob, Request.bodyText, hu, hb]

/-- A fresh `json()` marks consumed and then parses the decoded text. -/
theorem req_json_fresh (r : Request) (hu : r.bodyUsed = false) :
    r.json = ((jsonParse r.bodyText).elim
        (.error (.syntaxError "Unexpected token in JSON")) .ok,
      { r with bodyUsed := true }) := by
  show (match r.text with
    | (Except.error e, r2) => (Except.error e, r2)
    | (Except.ok s, r2) =>
      match jsonParse s with
      | some v => (Except.ok v, r2)
      | none => (Except.error (JsError.syntaxError "Unexpected token in JSON"), r2)) = _
  rw [req_text_fresh r hu]
  cases hp : jsonParse r.bodyText <;> simp [hp, Option.elim]

/-- A fresh `text()` on a response. -/
theorem res_text_fresh (r : Response) (hu : r.bodyUsed = false) :
    r.text = (.ok r.bodyText, { r with bodyUsed := true }) := by
  cases hb : r.body <;> simp [Response.text, Response.bodyText, hu, hb]

/-- A fresh `arrayBuffer()` on a response. -/
theorem res_arrayBuffer_fresh (r : Response) (hu : r.bodyUsed = false) :
    r.arrayBuffer = (.ok r.bodyText, { r with bodyUsed := true }) := by
  cases hb : r.body <;> simp [Response.arrayBuffer, Response.bodyText, hu, hb]

/-- A fresh `blob()` on a response. -/
theorem res_blob_fresh (r : Response) (hu : r.bodyUsed = false) :
    r.blob = (.ok r.bodyText, { r with bodyUsed := true }) := by
  cases hb : r.body <;> simp [Response.blob, Response.bodyText, hu, hb]

/-- A fresh `json()` on a response. -/
theorem res_json_fresh (r : Response) (hu : r.bodyUsed = false) :
    r.json = ((jsonParse r.bodyText).elim
        (.error (.syntaxError "Unexpected token in JSON")) .ok,
      { r with bodyUsed := true }) := by
  show (match r.text with
    | (Except.error e, r2) => (Except.error e, r2)
    | (Except.ok s, r2) =>
      match jsonParse s with
      | some v => (Except.ok v, r2)
      | none => (Except.error (JsError.syntaxError "Unexpected token in JSON"), r2)) = _
  rw [res_text_fresh r hu]
  cases hp : jsonParse r.bodyText <;> simp [hp, Option.elim]

/-- On a consumed request every accessor fails with the consumption error
and leaves the state unchanged. -/
theorem req_invoke_used (r : Request) (a : Accessor) (h : r.bodyUsed = true) :
    r.invoke a = (.error (.typeError "Body has already been consumed"), r) := by
  cases a <;>
    simp [Request.invoke, Request.text, Request.arrayBuffer, Request.blob,
      Request.json, Except.map, h]

/-- On a consumed response every accessor fails with the consumption error
and leaves the state unchanged. -/
theorem res_invoke_used (r : Response) (a : Accessor) (h : r.bodyUsed = true) :
    r.invoke a = (.error (.typeError "Body has already been consumed"), r) := by
  cases a <;>
    simp [Response.invoke, Response.text, Response.arrayBuffer, Response.blob,
      Response.json, Except.map, h]

/-- After any accessor call the request is marked consumed (a previously
consumed request stays consumed; a fresh one gets the flag set even when
`json()` goes on to fail). -/
theorem req_invoke_sets (r : Request) (a : Accessor) :
    ((r.invoke a).2).bodyUsed = true := by
  by_cases hu : r.bodyUsed
  · rw [req_invoke_used r a hu]
    exact hu
  · replace hu : r.bodyUsed = false := by simpa using hu
    cases a
    · rw [show r.invoke .text = ((r.text).1.map (fun _ => ()), (r.text).2) from rfl,
        req_text_fresh r hu]
    · rw [show r.invoke .arrayBuffer
          = ((r.arrayBuffer).1.map (fun _ => ()), (r.arrayBuffer).2) from rfl,
        req_arrayBuffer_fresh r hu]
    · rw [show r.invoke .blob = ((r.blob).1.map (fun _ => ()), (r.blob).2) from rfl,
        req_blob_fresh r hu]
    · rw [show r.invoke .json = ((r.json).1.map (fun _ => ()), (r.json).2) from rfl,
        req_json_fresh r hu]

/-- After any accessor call the response is marked consumed. -/
theorem res_invoke_sets (r : Response) (a : Accessor) :
    ((r.invoke a).2).bodyUsed = true := by
  by_cases hu : r.bodyUsed
  · rw [res_invoke_used r a hu]
    exact hu
  · replace hu : r.bodyUsed = false := by simpa using hu
    cases a
    · rw [show r.invoke .text = ((r.text).1.map (fun _ => ()), (r.text).2) from rfl,
        res_text_fresh r hu]
    · rw [show r.invoke .arrayBuffer
          = ((r.arrayBuffer).1.map (fun _ => ()), (r.arrayBuffer).2) from rfl,
        res_arrayBuffer_fresh r hu]
    · rw [show r.invoke .blob = ((r.blob).1.map (fun _ => ()), (r.blob).2) from rfl,
        res_blob_fresh r hu]
    · rw [show r.invoke .json = ((r.json).1.map (fun _ => ()), (r.json).2) from rfl,
        res_json_fresh r hu]

/-- A successful accessor call leaves the request marked consumed. -/
theorem req_invoke_ok_used (r : Request) (a : Accessor)
    (_h : ((r.invoke a).1).isOk = true) : ((r.invoke a).2).bodyUsed = true :=
  req_invoke_sets r a

/-- A successful accessor call leaves the response marked consumed. -/
theorem res_invoke_ok_used (r : Response) (a : Accessor)
    (_h : ((r.invoke a).1).isOk = true) : ((r.invoke a).2).bodyUsed = true :=
  res_invoke_sets r a

/-- Once consumed, a whole accessor sequence yields only failures. -/
theorem req_runCalls_used (as : List Accessor) :
    ∀ (r : Request), r.bodyUsed = true → ((r.runCalls as).1.count true) = 0 := by
  induction as with
  | nil => intro r _; rfl
  | cons a t ih =>
    intro r h
    simp only [Request.runCalls, req_invoke_used r a h, List.count_cons]
    simp [ih r h, Except.isOk, Except.toBool]

/-- Once consumed, a whole accessor sequence yields only failures
(response). -/
theorem res_runCalls_used (as : List Accessor) :
    ∀ (r : Response), r.bodyUsed = true → ((r.runCalls as).1.count true) = 0 := by
  induction as with
  | nil => intro r _; rfl
  | cons a t ih =>
    intro r h
    simp only [Response.runCalls, res_invoke_used r a h, List.count_cons]
    simp [ih r h, Except.isOk, Except.toBool]

/-- At most one success in any accessor sequence on a request. -/
theorem req_runCalls_once (as : List Accessor) :
    ∀ (r : Request), ((r.runCalls as).1.count true) ≤ 1 := by
  induction as with
  | nil => intro r; simp [Request.runCalls]
  | cons a t ih =>
    intro r
    simp only [Request.runCalls, List.count_cons]
    by_cases hok : ((r.invoke a).1).isOk = true
    · have hused := req_invoke_ok_used r a hok
      simp [hok, req_runCalls_used t _ hused]
    · replace hok : ((r.invoke a).1).isOk = false := by simpa using hok
      simp [hok]
      exact ih _

/-- At most one success in any accessor sequence on a response. -/
theorem res_runCalls_once (as : List Accessor) :
    ∀ (r : Response), ((r.runCalls as).1.count true) ≤ 1 := by
  induction as with
  | nil => intro r; simp [Response.runCalls]
  | cons a t ih =>
    intro r
    simp only [Response.runCalls, List.count_cons]
    by_cases hok : ((r.invoke a).1).isOk = true
    · have hused := res_invoke_ok_used r a hok
      simp [hok, res_runCalls_used t _ hused]
    · replace hok : ((r.invoke a).1).isOk = false := by simpa using hok
      simp [hok]
      exact ih _

/-- C3: for every body-bearing Request or Response, at most one call drawn
from {text, arrayBuffer, blob, json} succeeds — the first success marks the
body consumed, and every call on a consumed message fails with the
body-already-consumed error, unchanged state. -/
theorem C3_single_consumption :
    (∀ (r : Request) (as : List Accessor), ((r.runCalls as).1.count true) ≤ 1)
    ∧ (∀ (r : Request) (a : Accessor), ((r.invoke a).1).isOk = true →
        ((r.invoke a).2).bodyUsed = true)
    ∧ (∀ (r : Request) (a : Accessor), r.bodyUsed = true →
        r.invoke a = (.error (.typeError "Body has already been consumed"), r))
    ∧ (∀ (r : Response) (as : List Accessor), ((r.runCalls as).1.count true) ≤ 1)
    ∧ (∀ (r : Response) (a : Accessor), ((r.invoke a).1).isOk = true →
        ((r.invoke a).2).bodyUsed = true)
    ∧ (∀ (r : Response) (a : Accessor), r.bodyUsed = true →
        r.invoke a = (.error (.typeError "Body has already been consumed"), r)) :=
  ⟨fun r as => req_runCalls_once as r,
   req_invoke_ok_used,
   req_invoke_used,
   fun r as => res_runCalls_once as r,
   res_invoke_ok_used,
   res_invoke_used⟩

/-- C3 witness: a request carrying `"hi"` lets only the first of
`text, json, blob` succeed, and a consumed response rejects `text`. -/
theorem C3_witness :
    ((Request.new "/" { body := some (.str "hi") }).runCalls
        [.text, .json, .blob]).1.count true ≤ 1
    ∧ (Response.mk 200 "OK" ⟨[]⟩ (some "hi") true).invoke .text
        = (.error (.typeError "Body has already been consumed"),
           Response.mk 200 "OK" ⟨[]⟩ (some "hi") true) :=
  ⟨C3_single_consumption.1 (Request.new "/" { body := some (.str "hi") })
      [.text, .json, .blob],
   C3_single_consumption.2.2.2.2.2 (Response.mk 200 "OK" ⟨[]⟩ (some "hi") true)
      .text (by decide)⟩

/-- C10: a failed `json()` still consumes the body — `text()` sets the flag
before `JSON.parse` throws — so afterwards every accessor and `clone` fail. -/
theorem C10_json_parse_failure_consumes :
    (∀ (r : Request), r.bodyUsed = false → jsonParse r.bodyText = none →
      (r.json).1 = .error (.syntaxError "Unexpected token in JSON")
      ∧ ((r.json).2).bodyUsed = true
      ∧ (∀ a, ((r.json).2).invoke a
          = (.error (.typeError "Body has already been consumed"), (r.json).2))
      ∧ ((r.json).2).clone
          = .error (.typeError "Cannot clone a Request whose body has been used"))
    ∧ (∀ (r : Response), r.bodyUsed = false → jsonParse r.bodyText = none →
      (r.json).1 = .error (.syntaxError "Unexpected token in JSON")
      ∧ ((r.json).2).bodyUsed = true
      ∧ (∀ a, ((r.json).2).invoke a
          = (.error (.typeError "Body has already been consumed"), (r.json).2))
      ∧ ((r.json).2).clone
          = .error (.typeError "Cannot clone a Response whose body has been used")) := by
  constructor
  · intro r hu hp
    have hj : r.json = (.error (.syntaxError "Unexpected token in JSON"),
        { r with bodyUsed := true }) := by
      rw [req_json_fresh r hu, hp]
      rfl
    refine ⟨by rw [hj], by rw [hj], fun a => ?_, ?_⟩
    · rw [hj]
      exact req_invoke_used _ a rfl
    · rw [hj]
      simp [Request.clone]
  · intro r hu hp
    have hj : r.json = (.error (.syntaxError "Unexpected token in JSON"),
        { r with bodyUsed := true }) := by
      rw [res_json_fresh r hu, hp]
      rfl
    refine ⟨by rw [hj], by rw [hj], fun a => ?_, ?_⟩
    · rw [hj]
      exact res_invoke_used _ a rfl
    · rw [hj]
      simp [Response.clone]

/-- C10 witness: a request whose body is the single character `{` (invalid
JSON) fails `json()` yet is left consumed, so `text()` and `clone()` fail. -/
theorem C10_witness :
    ((Request.new "/" { body := some (.str "\x7b") }).json).1
      = .error (.syntaxError "Unexpected token in JSON")
    ∧ (((Request.new "/" { body := some (.str "\x7b") }).json).2).invoke .text
      = (.error (.typeError "Body has already been consumed"),
         ((Request.new "/" { body := some (.str "\x7b") }).json).2) :=
  have h := C10_json_parse_failure_consumes.1
    (Request.new "/" { body := some (.str "\x7b") }) (by decide) (by rfl)
  ⟨h.1, h.2.2.1 .text⟩

/-- C4: before consumption, `clone()` yields a fresh unconsumed message with
the same method/url (or status/statusText), the same well-formed header
entries, and the same body bytes; after consumption it fails. -/
theorem C4_clone :
    (∀ (r : Request), r.headers.WellFormed →
      (r.bodyUsed = false →
        r.clone = .ok (Request.mk r.method r.url r.headers r.body false))
      ∧ (r.bodyUsed = true →
        r.clone = .error (.typeError "Cannot clone a Request whose body has been used")))
    ∧ (∀ (r : Response), r.headers.WellFormed →
      (r.bodyUsed = false →
        r.clone = .ok (Response.mk r.status r.statusText r.headers r.body false))
      ∧ (r.bodyUsed = true →
        r.clone = .error (.typeError "Cannot clone a Response whose body has been used"))) := by
  constructor
  · intro r hw
    constructor
    · intro hu
      have hh : Headers.ofInitOpt (some (.headers r.headers)) = r.headers :=
        ofInit_headers_eq hw
      cases hb : r.body <;>
        simp [Request.clone, Request.new, hu, hh, hb]
    · intro hu
      simp [Request.clone, hu]
  · intro r hw
    constructor
    · intro hu
      have hh : Headers.ofInitOpt (some (.headers r.headers)) = r.headers :=
        ofInit_headers_eq hw
      cases hb : r.body <;>
        simp [Response.clone, Response.new, hu, hh, hb]
    · intro hu
      simp [Response.clone, hu]

/-!
### Named constructors and wire conversion (C8, C9)
-/

/-- C8: `Response.redirect(url, status)` throws a `RangeError` (producing
no partial object) whenever `status ∉ {301, 302, 303, 307, 308}`; for a
status in that set it yields a response with that status, header
`location: url`, and no body; omitting the status defaults it to 302. -/
theorem C8_redirect (url : String) (status : Nat) :
    (¬ (status = 301 ∨ status = 302 ∨ status = 303 ∨ status = 307 ∨ status = 308) →
      Response.redirect url status
        = .error (.rangeError ("Invalid redirect status: " ++ toString status)))
    ∧ ((status = 301 ∨ status = 302 ∨ status = 303 ∨ status = 307 ∨ status = 308) →
      ∃ r, Response.redirect url status = .ok r
        ∧ r.status = status
        ∧ r.headers.get "location" = some url
        ∧ r.body = none)
    ∧ Response.redirect url = Response.redirect url 302 := by
  refine ⟨?_, ?_, rfl⟩
  · intro h
    unfold Response.redirect
    rw [if_neg h]
  · intro h
    refine ⟨Response.new none
      { status := some status, headers := some (.record [("location", url)]) },
      ?_, rfl, ?_, rfl⟩
    · unfold Response.redirect
      rw [if_pos h]
    · show mapGet (mapSet [] (strLower "location") url) (strLower "location") = some url
      exact mapGet_mapSet_self [] _ url

/-- C8 witness: status 200 is rejected; status 301 yields a `location`
header and empty body. -/
theorem C8_witness :
    Response.redirect "/t" 200
      = .error (.rangeError ("Invalid redirect status: " ++ toString 200))
    ∧ ∃ r, Response.redirect "/t" 301 = .ok r
        ∧ r.status = 301
        ∧ r.headers.get "location" = some "/t"
        ∧ r.body = none :=
  ⟨(C8_redirect "/t" 200).1 (by decide), (C8_redirect "/t" 301).2.1 (by decide)⟩

/-- C9: the wire conversion reproduces the status, the headers as the
ordered `{name, value}` records of the entries (all names lower-case for a
well-formed collection), and the raw body bytes — and, being a pure read
of `this` (the embedding types it `Response → JsResponse` because the
source method contains no write), it does not flip `consumed`: on an
unconsumed response, `text()` still succeeds after conversion. -/
theorem C9_toJsResponse (r : Response) (hw : r.headers.WellFormed) :
    (r.toJsResponse).status = r.status
    ∧ (r.toJsResponse).headers = r.headers.entries.map (fun kv => ⟨kv.1, kv.2⟩)
    ∧ (∀ jh ∈ (r.toJsResponse).headers, strLower jh.name = jh.name)
    ∧ (r.toJsResponse).body = r.body
    ∧ (r.bodyUsed = false → (r.text).1 = .ok r.bodyText) := by
  refine ⟨rfl, rfl, ?_, rfl, ?_⟩
  · intro jh hjh
    obtain ⟨kv, hkv, hkveq⟩ := List.mem_map.mp hjh
    rw [← hkveq]
    exact hw.1 kv hkv
  · intro hu
    rw [res_text_fresh r hu]

/-- C9 witness: a concrete response with one header converts to the
expected wire shape and remains readable. -/
theorem C9_witness :
    ((Response.mk 201 "OK" ⟨[("x-a", "1")]⟩ (some "hi") false).toJsResponse).status = 201
    ∧ ((Response.mk 201 "OK" ⟨[("x-a", "1")]⟩ (some "hi") false).toJsResponse).headers
        = [⟨"x-a", "1"⟩]
    ∧ ((Response.mk 201 "OK" ⟨[("x-a", "1")]⟩ (some "hi") false).text).1 = .ok "hi" :=
  have h := C9_toJsResponse (Response.mk 201 "OK" ⟨[("x-a", "1")]⟩ (some "hi") false)
    (by constructor <;> decide)
  ⟨h.1, h.2.1, h.2.2.2.2 rfl⟩

/-!
### FetchEvent: reply protocol (C1, C2) and dispatch fan-out (C5)
-/

/-- When the sink accepts the wire response, the success path invokes it
exactly once. -/
theorem settle_ok_accepted (ev : FetchEvent) (res : Response)
    (hs : ev.respondCallback res.toJsResponse = none) :
    ev.settle (.ok res) = [res.toJsResponse] := by
  simp only [FetchEvent.settle]
  rw [hs]

/-- When the sink throws on the success path, `responseSent` is still
false in the catch, which therefore builds a 500 from the sink's own
error and invokes the sink a second time. -/
theorem settle_ok_sink_throws (ev : FetchEvent) (res : Response) (m : String)
    (hs : ev.respondCallback res.toJsResponse = some m) :
    ev.settle (.ok res)
      = [res.toJsResponse,
         (Response.new (some (.str ("Internal Server Error: " ++ m)))
           { status := some 500 }).toJsResponse] := by
  simp only [FetchEvent.settle]
  rw [hs]

/-- The rejection path invokes the sink exactly once with the synthetic
500, whatever the sink then does (its failure is caught and only logged). -/
theorem settle_err (ev : FetchEvent) (m : String) :
    ev.settle (.err m)
      = [(Response.new (some (.str ("Internal Server Error: " ++ m)))
          { status := some 500 }).toJsResponse] := rfl

/-- C1 counterexample: the blanket "reply sink invoked at most once" fails
when the sink itself throws on the success path — the first invocation
throws, the catch (with `responseSent` still false) builds a 500 from that
error and invokes the sink again: two invocations for one `FetchEvent` and
a single `respondWith` call. -/
theorem C1_counterexample :
    ((FetchEvent.new (Request.new "/" {}) "peer" (fun _ => some "gone")).respondWith
        (.ok (Response.new (some (.str "hi")) {}))).map (fun p => p.2.length)
      = .ok 2
    ∧ ¬ (2 ≤ 1) := by
  constructor
  · rfl
  · decide

/-- C1 (amended): provided the reply sink does not itself throw, it is
invoked at most once per event; unconditionally, the first `respondWith`
sets the responded flag synchronously (before any settlement), and any
second `respondWith` — whatever its outcome argument, settled or not —
throws the already-responded error immediately without any sink
invocation. -/
theorem C1_respond_once (ev : FetchEvent) (o : SettledOutcome)
    (hr : ev.responded = false) :
    ev.respondWith o
      = .ok ({ ev with responded := true },
             ({ ev with responded := true } : FetchEvent).settle o)
    ∧ ((∀ w, ev.respondCallback w = none) →
        (({ ev with responded := true } : FetchEvent).settle o).length ≤ 1)
    ∧ (∀ o2, ({ ev with responded := true } : FetchEvent).respondWith o2
        = .error (.plainError "respondWith() has already been called")) := by
  refine ⟨?_, ?_, fun o2 => rfl⟩
  · unfold FetchEvent.respondWith FetchEvent.respondWithSync
    rw [hr]
    rfl
  · intro hsink
    cases o with
    | ok res =>
      rw [settle_ok_accepted ({ ev with responded := true }) res (hsink res.toJsResponse)]
      simp
    | err m =>
      rw [settle_err ({ ev with responded := true }) m]
      simp

/-- C1 witness: a concrete event with a non-throwing sink makes at most
one sink invocation on the rejection path. -/
theorem C1_witness :
    (({ FetchEvent.new (Request.new "/" {}) "peer" (fun _ => none)
        with responded := true } : FetchEvent).settle (.err "boom")).length ≤ 1 :=
  (C1_respond_once (FetchEvent.new (Request.new "/" {}) "peer" (fun _ => none))
    (.err "boom") rfl).2.1 (fun _ => rfl)

/-- C2: when the `respondWith` argument rejects with message `m` (the
success path never having sent anything), the sink is invoked exactly once
with a wire response of status 500 and body `"Internal Server Error: " ++ m`,
and `respondWith` returns normally even if the sink throws at that point
(the failure is caught and only logged) — `ev.respondCallback` is
universally quantified here, so the result covers throwing sinks. -/
theorem C2_rejection_500 (ev : FetchEvent) (m : String)
    (hr : ev.responded = false) :
    ev.respondWith (.err m)
      = .ok ({ ev with responded := true },
             [{ status := 500, headers := [],
                body := some ("Internal Server Error: " ++ m) }]) := by
  unfold FetchEvent.respondWith FetchEvent.respondWithSync
  rw [hr]
  rfl

/-- C2 witness: a throwing sink still yields exactly the one 500 reply
carrying `"boom"`, with no propagated failure. -/
theorem C2_witness :
    (FetchEvent.new (Request.new "/" {}) "peer" (fun _ => some "gone")).respondWith
        (.err "boom")
      = .ok ({ FetchEvent.new (Request.new "/" {}) "peer" (fun _ => some "gone")
               with responded := true },
             [{ status := 500, headers := [],
                body := some ("Internal Server Error: " ++ "boom") }]) :=
  C2_rejection_500 (FetchEvent.new (Request.new "/" {}) "peer" (fun _ => some "gone"))
    "boom" rfl

/-- C5: one dispatch invokes every registered handler, in registration
order, on the same threaded event instance: the trace has exactly one
entry per handler, the head invocation receives the current event state,
and the loop continues with the remaining handlers whatever the previous
handler's caught thrown-message was. -/
theorem C5_dispatch_all (handlers : List Handler) (ev : FetchEvent) :
    ((dispatchTrace handlers ev).1).length = handlers.length
    ∧ dispatchTrace ([] : List Handler) ev = ([], ev)
    ∧ (∀ (h : Handler) (hs : List Handler),
        dispatchTrace (h :: hs) ev
          = ((ev, (h ev).1) :: (dispatchTrace hs ((h ev).2)).1,
             (dispatchTrace hs ((h ev).2)).2)) := by
  refine ⟨?_, rfl, fun h hs => rfl⟩
  induction handlers generalizing ev with
  | nil => rfl
  | cons h hs ih => simpa [dispatchTrace] using ih ((h ev).2)

/-!
### JSON codec round-trip (towards C7)

`jsonParse` inverts `jsonStringify` on every value of the embedded
fragment. Digit runs first, then string escaping, then the mutual
induction over the grammar.
-/

/-- A digit character is a digit and carries its digit back. -/
theorem digitChar_spec (d : Nat) (h : d < 10) :
    (digitChar d).isDigit = true ∧ digitVal (digitChar d) = d := by
  interval_cases d <;> exact ⟨by decide, by decide⟩

/-- Every character `natCharsAux` emits is a digit. -/
theorem natCharsAux_digits :
    ∀ (fuel n : Nat), ∀ c ∈ natCharsAux fuel n, c.isDigit = true := by
  intro fuel
  induction fuel with
  | zero => intro n c hc; simp [natCharsAux] at hc
  | succ f ih =>
    intro n c hc
    unfold natCharsAux at hc
    by_cases hn : n < 10
    · rw [if_pos hn] at hc
      rw [List.mem_singleton.mp hc]
      exact (digitChar_spec n hn).1
    · rw [if_neg hn] at hc
      rcases List.mem_append.mp hc with h1 | h1
      · exact ih (n / 10) c h1
      · rw [List.mem_singleton.mp h1]
        exact (digitChar_spec (n % 10) (Nat.mod_lt _ (by omega))).1

/-- With fuel available, `natCharsAux` emits at least one character. -/
theorem natCharsAux_ne_nil (fuel n : Nat) (h : 0 < fuel) :
    natCharsAux fuel n ≠ [] := by
  cases fuel with
  | zero => omega
  | succ f =>
    unfold natCharsAux
    by_cases hn : n < 10
    · rw [if_pos hn]; simp
    · rw [if_neg hn]; simp

/-- Reading one more trailing digit multiplies the accumulator by ten. -/
theorem chNat_append_digit (l : List Char) (c : Char) :
    chNat (l ++ [c]) = (chNat l) * 10 + digitVal c := by
  unfold chNat
  rw [List.foldl_append]
  rfl

/-- The digit run of `n` reads back as `n`. -/
theorem chNat_natCharsAux :
    ∀ (fuel n : Nat), n < fuel → chNat (natCharsAux fuel n) = n := by
  intro fuel
  induction fuel with
  | zero => intro n h; omega
  | succ f ih =>
    intro n h
    unfold natCharsAux
    by_cases hn : n < 10
    · rw [if_pos hn]
      show 0 * 10 + digitVal (digitChar n) = n
      rw [(digitChar_spec n hn).2]
      omega
    · rw [if_neg hn, chNat_append_digit, ih (n / 10) (by omega),
        (digitChar_spec (n % 10) (Nat.mod_lt _ (by omega))).2]
      omega

/-- `natChars` round-trips through `chNat`. -/
theorem chNat_natChars (n : Nat) : chNat (natChars n) = n :=
  chNat_natCharsAux (n + 1) n (by omega)

/-- All of `natChars` is digits. -/
theorem natChars_digits (n : Nat) : ∀ c ∈ natChars n, c.isDigit = true :=
  natCharsAux_digits (n + 1) n

/-- `natChars` starts with a digit. -/
theorem natChars_cons (n : Nat) :
    ∃ c t, natChars n = c :: t ∧ c.isDigit = true := by
  cases h : natChars n with
  | nil => exact absurd h (natCharsAux_ne_nil (n + 1) n (by omega))
  | cons c t =>
    refine ⟨c, t, rfl, ?_⟩
    exact natChars_digits n c (by rw [h]; exact List.mem_cons_self c t)

/-- `takeWhile`/`dropWhile` split a digit run exactly at a non-digit tail. -/
theorem takeDrop_digit_run (ds : List Char) (hds : ∀ c ∈ ds, c.isDigit = true)
    (rest : List Char) (hrest : noDigitHead rest = true) :
    (ds ++ rest).takeWhile Char.isDigit = ds
    ∧ (ds ++ rest).dropWhile Char.isDigit = rest := by
  induction ds with
  | nil =>
    simp only [List.nil_append]
    cases rest with
    | nil => exact ⟨rfl, rfl⟩
    | cons c t =>
      have hc : c.isDigit = false := by simpa [noDigitHead] using hrest
      exact ⟨by simp [List.takeWhile_cons, hc], by simp [List.dropWhile_cons, hc]⟩
  | cons c ds ih =>
    have hc : c.isDigit = true := hds c (by simp)
    have iht := ih (fun x hx => hds x (by simp [hx]))
    exact ⟨by simp [List.takeWhile_cons, hc, iht.1],
           by simp [List.dropWhile_cons, hc, iht.2]⟩

/-- `readNat` inverts `natChars` before a non-digit tail. -/
theorem readNat_natChars (n : Nat) (rest : List Char)
    (hrest : noDigitHead rest = true) :
    readNat (natChars n ++ rest) = some (n, rest) := by
  obtain ⟨htake, hdrop⟩ := takeDrop_digit_run (natChars n) (natChars_digits n) rest hrest
  unfold readNat
  rw [htake, hdrop]
  have hne : (natChars n).isEmpty = false := by
    cases h : natChars n with
    | nil => exact absurd h (natCharsAux_ne_nil (n + 1) n (by omega))
    | cons c t => rfl
  simp [hne, chNat_natChars]

/-- `readNumber` inverts `numChars` before a non-digit tail. -/
theorem readNumber_numChars (n : Int) (rest : List Char)
    (hrest : noDigitHead rest = true) :
    readNumber (numChars n ++ rest) = some (n, rest) := by
  by_cases hn : n < 0
  · have harg : numChars n ++ rest = '-' :: (natChars n.natAbs ++ rest) := by
      simp [numChars, hn]
    have hval : -(n.natAbs : Int) = n := by omega
    rw [harg]
    show (if ('-' : Char) = '-' then
        (readNat (natChars n.natAbs ++ rest)).map (fun p => (-(p.1 : Int), p.2))
      else (readNat ('-' :: (natChars n.natAbs ++ rest))).map
        (fun p => ((p.1 : Int), p.2))) = some (n, rest)
    rw [if_pos rfl, readNat_natChars n.natAbs rest hrest]
    show some ((-(n.natAbs : Int), rest)) = some (n, rest)
    rw [hval]
  · obtain ⟨c0, t0, h0, hd0⟩ := natChars_cons n.natAbs
    have hneg : ¬ c0 = '-' := fun he => by
      rw [he] at hd0; exact absurd hd0 (by decide)
    have hval : (n.natAbs : Int) = n := by omega
    have harg : numChars n ++ rest = c0 :: (t0 ++ rest) := by
      simp [numChars, hn, h0]
    rw [harg]
    show (if c0 = '-' then
        (readNat (t0 ++ rest)).map (fun p => (-(p.1 : Int), p.2))
      else (readNat (c0 :: (t0 ++ rest))).map (fun p => ((p.1 : Int), p.2)))
      = some (n, rest)
    rw [if_neg hneg,
      show c0 :: (t0 ++ rest) = (c0 :: t0) ++ rest from rfl, ← h0,
      readNat_natChars n.natAbs rest hrest]
    show some (((n.natAbs : Int), rest)) = some (n, rest)
    rw [hval]

/-- Reading one escaped character undoes the escape. -/
theorem readStr_escape (c : Char) (rest : List Char) :
    readStr (escChar c ++ rest) = (readStr rest).map (fun p => (c :: p.1, p.2)) := by
  by_cases hq : c = '"' ∨ c = '\\'
  · rcases hq with rfl | rfl
    · rw [show escChar '"' ++ rest = '\\' :: ('"' :: rest) by simp [escChar]]
      rw [readStr.eq_def]
      simp
    · rw [show escChar '\\' ++ rest = '\\' :: ('\\' :: rest) by simp [escChar]]
      rw [readStr.eq_def]
      simp
  · push_neg at hq
    rw [show escChar c ++ rest = c :: rest by simp [escChar, hq.1, hq.2]]
    rw [readStr.eq_def]
    simp [hq.1, hq.2]

/-- Reading a whole escaped run stops exactly at the closing quote. -/
theorem readStr_escaped_run (l : List Char) :
    ∀ rest : List Char,
      readStr (l.flatMap escChar ++ ('"' :: rest)) = some (l, rest) := by
  induction l with
  | nil =>
    intro rest
    rw [show ([] : List Char).flatMap escChar ++ ('"' :: rest) = '"' :: rest by simp]
    rw [readStr.eq_def]
    simp
  | cons c t ih =>
    intro rest
    rw [List.flatMap_cons, List.append_assoc, readStr_escape, ih]
    rfl

/-- `skipWs` is the identity on input headed by a non-whitespace character. -/
theorem skipWs_no_ws (c : Char) (t : List Char) (h : jsonWs c = false) :
    skipWs (c :: t) = c :: t := by
  simp [skipWs, List.dropWhile_cons, h]

/-- A digit collides with none of the parser's structural lead characters. -/
theorem digit_sep {c : Char} (h : c.isDigit = true) :
    jsonWs c = false ∧ c ≠ 'n' ∧ c ≠ 't' ∧ c ≠ 'f' ∧ c ≠ '"' ∧ c ≠ '['
    ∧ c ≠ lbrace ∧ c ≠ ']' ∧ c ≠ rbrace ∧ c ≠ '-' ∧ c ≠ ',' := by
  have hne : ∀ c' : Char, c'.isDigit = false → c ≠ c' := fun c' hc' he => by
    rw [he] at h
    rw [h] at hc'
    cases hc'
  refine ⟨?_, hne 'n' (by decide), hne 't' (by decide), hne 'f' (by decide),
    hne '"' (by decide), hne '[' (by decide), hne lbrace (by decide),
    hne ']' (by decide), hne rbrace (by decide), hne '-' (by decide),
    hne ',' (by decide)⟩
  simp only [jsonWs, Bool.or_eq_false_iff, beq_eq_false_iff_ne]
  exact ⟨⟨⟨hne ' ' (by decide), hne '\t' (by decide)⟩, hne '\n' (by decide)⟩,
    hne '\r' (by decide)⟩

/-- Every serialized value starts with a non-whitespace character that
closes neither an array nor an object. -/
theorem strVal_lead (v : Json) :
    ∃ c t, strVal v = c :: t ∧ jsonWs c = false ∧ c ≠ ']' ∧ c ≠ rbrace := by
  cases v with
  | num n =>
    by_cases hn : n < 0
    · refine ⟨'-', natChars n.natAbs, by simp [strVal, numChars, hn], ?_, ?_, ?_⟩ <;>
        decide
    · obtain ⟨c0, t0, h0, hd0⟩ := natChars_cons n.natAbs
      have hsep := digit_sep hd0
      exact ⟨c0, t0, by simp [strVal, numChars, hn, h0], hsep.1,
        hsep.2.2.2.2.2.2.2.1, hsep.2.2.2.2.2.2.2.2.1⟩
  | null => refine ⟨'n', _, rfl, ?_, ?_, ?_⟩ <;> decide
  | bool b =>
    cases b with
    | true => refine ⟨'t', _, rfl, ?_, ?_, ?_⟩ <;> decide
    | false => refine ⟨'f', _, rfl, ?_, ?_, ?_⟩ <;> decide
  | str s => refine ⟨'"', _, rfl, ?_, ?_, ?_⟩ <;> decide
  | arr es =>
    cases es with
    | nil => refine ⟨'[', _, rfl, ?_, ?_, ?_⟩ <;> decide
    | cons x xs => refine ⟨'[', _, rfl, ?_, ?_, ?_⟩ <;> decide
  | obj ms =>
    cases ms with
    | nil => refine ⟨lbrace, _, rfl, ?_, ?_, ?_⟩ <;> decide
    | cons m ms => refine ⟨lbrace, _, rfl, ?_, ?_, ?_⟩ <;> decide

/-- A serialized value is nonempty. -/
theorem strVal_length_pos (v : Json) : 1 ≤ (strVal v).length := by
  obtain ⟨c, t, hv, _, _, _⟩ := strVal_lead v
  rw [hv]
  simp

/-- `skipWs` is the identity in front of a serialized value. -/
theorem skipWs_strVal (v : Json) (x : List Char) :
    skipWs (strVal v ++ x) = strVal v ++ x := by
  obtain ⟨c, t, hv, hws, _, _⟩ := strVal_lead v
  rw [hv, List.cons_append]
  exact skipWs_no_ws c (t ++ x) hws

/-- A lead character that is no keyword, quote, bracket or brace sends the
parser to the number branch. -/
theorem parseValue_not_keyword (f : Nat) (c0 : Char) (t : List Char)
    (hws : jsonWs c0 = false) (h1 : c0 ≠ 'n') (h2 : c0 ≠ 't') (h3 : c0 ≠ 'f')
    (h4 : c0 ≠ '"') (h5 : c0 ≠ '[') (h6 : c0 ≠ lbrace) :
    parseValue (f + 1) (c0 :: t)
      = (readNumber (c0 :: t)).map (fun p => (Json.num p.1, p.2)) := by
  simp only [parseValue]
  rw [skipWs_no_ws c0 t hws]
  simp [h1, h2, h3, h4, h5, h6]

/-- The array branch of the parser, isolated. -/
theorem parseValue_arr_branch (f : Nat) (r : List Char) :
    parseValue (f + 1) ('[' :: r)
      = (if (skipWs r).head? = some ']' then some (.arr [], (skipWs r).tail)
         else (parseItems f (skipWs r)).map (fun p => (Json.arr p.1, p.2))) := by
  simp only [parseValue]
  rw [skipWs_no_ws '[' r (by decide)]
  simp

/-- The object branch of the parser, isolated. -/
theorem parseValue_obj_branch (f : Nat) (r : List Char) :
    parseValue (f + 1) (lbrace :: r)
      = (if (skipWs r).head? = some rbrace then some (.obj [], (skipWs r).tail)
         else (parsePairs f (skipWs r)).map (fun p => (Json.obj p.1, p.2))) := by
  simp only [parseValue]
  rw [skipWs_no_ws lbrace r (by decide)]
  simp [show ¬ lbrace = 'n' by decide, show ¬ lbrace = 't' by decide,
    show ¬ lbrace = 'f' by decide, show ¬ lbrace = '"' by decide,
    show ¬ lbrace = '[' by decide]

/-- Length of one serialized member. -/
theorem strPair_length (k : String) (v : Json) :
    (strPair (k, v)).length = (strKey k).length + 1 + (strVal v).length := by
  simp [strPair]
  omega

/-- A serialized key is nonempty. -/
theorem strKey_length_pos (k : String) : 1 ≤ (strKey k).length := by
  simp [strKey]

/-- Length of a serialized element continuation. -/
theorem strItems_cons_length (y : Json) (ys : List Json) :
    (strItems (y :: ys)).length = 1 + (strVal y).length + (strItems ys).length := by
  simp [strItems]
  omega

/-- Length of a serialized member continuation. -/
theorem strPairs_cons_length (m : String × Json) (ms : List (String × Json)) :
    (strPairs (m :: ms)).length = 1 + (strPair m).length + (strPairs ms).length := by
  simp [strPairs]
  omega

mutual
/-- Parsing a serialized value (with enough fuel, before a tail that cannot
extend a number) recovers exactly that value. -/
theorem rtVal : ∀ (v : Json) (fuel : Nat) (rest : List Char),
    (strVal v).length < fuel → noDigitHead rest = true →
    parseValue fuel (strVal v ++ rest) = some (v, rest)
  | _v, 0, _rest, hf, _ => absurd hf (by omega)
  | .null, fuel + 1, rest, _, _ => by
    rw [show strVal Json.null ++ rest = 'n' :: ('u' :: ('l' :: ('l' :: rest))) from rfl]
    simp only [parseValue]
    rw [skipWs_no_ws 'n' _ (by decide)]
    simp
  | .bool true, fuel + 1, rest, _, _ => by
    rw [show strVal (Json.bool true) ++ rest
        = 't' :: ('r' :: ('u' :: ('e' :: rest))) from rfl]
    simp only [parseValue]
    rw [skipWs_no_ws 't' _ (by decide)]
    simp
  | .bool false, fuel + 1, rest, _, _ => by
    rw [show strVal (Json.bool false) ++ rest
        = 'f' :: ('a' :: ('l' :: ('s' :: ('e' :: rest)))) from rfl]
    simp only [parseValue]
    rw [skipWs_no_ws 'f' _ (by decide)]
    simp
  | .num n, fuel + 1, rest, _, hrest => by
    by_cases hn : n < 0
    · rw [show strVal (Json.num n) ++ rest = '-' :: (natChars n.natAbs ++ rest) by
        simp [strVal, numChars, hn]]
      rw [parseValue_not_keyword fuel '-' _ (by decide) (by decide) (by decide)
        (by decide) (by decide) (by decide) (by decide)]
      rw [show '-' :: (natChars n.natAbs ++ rest) = numChars n ++ rest by
        simp [numChars, hn]]
      rw [readNumber_numChars n rest hrest]
      rfl
    · obtain ⟨c0, t0, h0, hd0⟩ := natChars_cons n.natAbs
      obtain ⟨hws, h1, h2, h3, h4, h5, h6, _, _, _, _⟩ := digit_sep hd0
      rw [show strVal (Json.num n) ++ rest = c0 :: (t0 ++ rest) by
        simp [strVal, numChars, hn, h0]]
      rw [parseValue_not_keyword fuel c0 _ hws h1 h2 h3 h4 h5 h6]
      rw [show c0 :: (t0 ++ rest) = numChars n ++ rest by
        simp [numChars, hn, h0]]
      rw [readNumber_numChars n rest hrest]
      rfl
  | .str s, fuel + 1, rest, _, _ => by
    rw [show strVal (Json.str s) ++ rest
        = '"' :: (s.data.flatMap escChar ++ ('"' :: rest)) by
      simp [strVal, strKey]]
    simp only [parseValue]
    rw [skipWs_no_ws '"' _ (by decide)]
    simp [readStr_escaped_run]
  | .arr [], fuel + 1, rest, _, _ => by
    rw [show strVal (Json.arr []) ++ rest = '[' :: (']' :: rest) from rfl]
    rw [parseValue_arr_branch fuel (']' :: rest)]
    rw [skipWs_no_ws ']' rest (by decide)]
    simp
  | .arr (x :: xs), fuel + 1, rest, hf, _ => by
    have hlenx := strVal_length_pos x
    have hlen : (strVal (Json.arr (x :: xs))).length
        = (strVal x).length + (strItems xs).length + 2 := by
      simp [strVal]
      omega
    have harg : strVal (Json.arr (x :: xs)) ++ rest
        = '[' :: (strVal x ++ (strItems xs ++ (']' :: rest))) := by
      simp [strVal, List.append_assoc]
    have hskip : skipWs (strVal x ++ (strItems xs ++ (']' :: rest)))
        = strVal x ++ (strItems xs ++ (']' :: rest)) := skipWs_strVal x _
    obtain ⟨c, t, hx, _, hcbr, _⟩ := strVal_lead x
    have hhead : ¬ ((strVal x ++ (strItems xs ++ (']' :: rest))).head? = some ']') := by
      rw [hx]
      simp [hcbr]
    have hitems := rtItems x xs fuel rest (by omega)
    rw [harg, parseValue_arr_branch fuel _, hskip, if_neg hhead, hitems]
    rfl
  | .obj [], fuel + 1, rest, _, _ => by
    rw [show strVal (Json.obj []) ++ rest = lbrace :: (rbrace :: rest) from rfl]
    rw [parseValue_obj_branch fuel (rbrace :: rest)]
    rw [skipWs_no_ws rbrace rest (by decide)]
    simp
  | .obj ((k, v) :: ms), fuel + 1, rest, hf, _ => by
    have hlen : (strVal (Json.obj ((k, v) :: ms))).length
        = (strPair (k, v)).length + (strPairs ms).length + 2 := by
      simp [strVal]
      omega
    have harg : strVal (Json.obj ((k, v) :: ms)) ++ rest
        = lbrace :: (strPair (k, v) ++ (strPairs ms ++ (rbrace :: rest))) := by
      simp [strVal, List.append_assoc]
    have harg2 : strPair (k, v) ++ (strPairs ms ++ (rbrace :: rest))
        = '"' :: (k.data.flatMap escChar
            ++ ('"' :: (':' :: (strVal v ++ (strPairs ms ++ (rbrace :: rest)))))) := by
      simp [strPair, strKey, List.append_assoc]
    have hskip : skipWs (strPair (k, v) ++ (strPairs ms ++ (rbrace :: rest)))
        = strPair (k, v) ++ (strPairs ms ++ (rbrace :: rest)) := by
      rw [harg2]
      exact skipWs_no_ws '"' _ (by decide)
    have hhead : ¬ ((strPair (k, v) ++ (strPairs ms ++ (rbrace :: rest))).head?
        = some rbrace) := by
      rw [harg2]
      simp
      decide
    have hpairs := rtPairs k v ms fuel rest (by omega)
    rw [harg, parseValue_obj_branch fuel _, hskip, if_neg hhead, hpairs]
    rfl
termination_by v _ _ _ _ => sizeOf v

/-- Parsing serialized elements through the closing bracket recovers the
element list. -/
theorem rtItems : ∀ (x : Json) (xs : List Json) (fuel : Nat) (rest : List Char),
    (strVal x).length + (strItems xs).length + 1 < fuel →
    parseItems fuel (strVal x ++ (strItems xs ++ (']' :: rest))) = some (x :: xs, rest)
  | _x, _xs, 0, _rest, hf => absurd hf (by omega)
  | x, [], fuel + 1, rest, hf => by
    have hval := rtVal x fuel (']' :: rest)
      (by simp only [strItems, List.length_nil] at hf; omega) rfl
    rw [show strVal x ++ (strItems [] ++ (']' :: rest)) = strVal x ++ (']' :: rest) by
      simp [strItems]]
    simp only [parseItems]
    rw [hval]
    simp [skipWs_no_ws ']' rest (by decide)]
  | x, y :: ys, fuel + 1, rest, hf => by
    have hlenx := strVal_length_pos x
    have hlen := strItems_cons_length y ys
    have harg : strVal x ++ (strItems (y :: ys) ++ (']' :: rest))
        = strVal x ++ (',' :: (strVal y ++ (strItems ys ++ (']' :: rest)))) := by
      simp [strItems, List.append_assoc]
    have hval := rtVal x fuel (',' :: (strVal y ++ (strItems ys ++ (']' :: rest))))
      (by omega) rfl
    have hrec := rtItems y ys fuel rest (by omega)
    rw [harg]
    simp only [parseItems]
    rw [hval]
    simp [skipWs_no_ws ',' (strVal y ++ (strItems ys ++ (']' :: rest))) (by decide), hrec]
termination_by x xs _ _ _ => sizeOf x + sizeOf xs + 1

/-- Parsing serialized members through the closing brace recovers the
member list. -/
theorem rtPairs : ∀ (k : String) (v : Json) (ms : List (String × Json))
    (fuel : Nat) (rest : List Char),
    (strPair (k, v)).length + (strPairs ms).length + 1 < fuel →
    parsePairs fuel (strPair (k, v) ++ (strPairs ms ++ (rbrace :: rest)))
      = some ((k, v) :: ms, rest)
  | _k, _v, _ms, 0, _rest, hf => absurd hf (by omega)
  | k, v, [], fuel + 1, rest, hf => by
    have hlen := strPair_length k v
    have hk := strKey_length_pos k
    have hval := rtVal v fuel (rbrace :: rest)
      (by simp only [strPairs, List.length_nil] at hf; omega) rfl
    have harg : strPair (k, v) ++ (strPairs [] ++ (rbrace :: rest))
        = '"' :: (k.data.flatMap escChar
            ++ ('"' :: (':' :: (strVal v ++ (rbrace :: rest))))) := by
      simp [strPair, strKey, strPairs, List.append_assoc]
    rw [harg]
    simp only [parsePairs]
    rw [skipWs_no_ws '"' _ (by decide)]
    simp [readStr_escaped_run, skipWs_no_ws ':' _ (by decide), hval,
      skipWs_no_ws rbrace _ (by decide), show ¬ rbrace = ',' by decide]
  | k, v, (k2, v2) :: ms2, fuel + 1, rest, hf => by
    have hlen := strPair_length k v
    have hk := strKey_length_pos k
    have hlen2 := strPairs_cons_length (k2, v2) ms2
    have harg : strPair (k, v) ++ (strPairs ((k2, v2) :: ms2) ++ (rbrace :: rest))
        = '"' :: (k.data.flatMap escChar
            ++ ('"' :: (':' :: (strVal v
              ++ (',' :: (strPair (k2, v2) ++ (strPairs ms2 ++ (rbrace :: rest)))))))) := by
      simp [strPair, strKey, strPairs, List.append_assoc]
    have hval := rtVal v fuel
      (',' :: (strPair (k2, v2) ++ (strPairs ms2 ++ (rbrace :: rest)))) (by omega) rfl
    have hrec := rtPairs k2 v2 ms2 fuel rest (by omega)
    rw [harg]
    simp only [parsePairs]
    rw [skipWs_no_ws '"' _ (by decide)]
    simp [readStr_escaped_run, skipWs_no_ws ':' _ (by decide), hval,
      skipWs_no_ws ',' _ (by decide), hrec]
termination_by k v ms _ _ _ => sizeOf v + sizeOf ms + 1
end

/-- The codec round-trip: `JSON.parse` recovers every value
`JSON.stringify` produces. -/
theorem jsonParse_stringify (v : Json) : jsonParse (jsonStringify v) = some v := by
  have hval := rtVal v ((strVal v).length + 1) [] (by omega) rfl
  rw [List.append_nil] at hval
  unfold jsonParse jsonStringify
  rw [show (String.mk (strVal v)).data = strVal v from rfl,
    show (strVal v).length + 1 = (strVal v).length + 1 from rfl, hval]
  rfl

/-- Looking up a name just `set` finds the stored value. -/
theorem headers_get_set (h : Headers) (n v : String) : (h.set n v).get n = some v := by
  show mapGet (mapSet h.entries (strLower n) v) (strLower n) = some v
  exact mapGet_mapSet_self _ _ _

/-- C7: `Response.json(data, init)` always carries
`content-type: application/json` — the explicit assignment happens after
the caller's headers are merged, so it wins even when `init.headers`
supplies a different content-type — and its body is the serialization of
`data`, which parses back to `data`. -/
theorem C7_response_json (data : Json) (init : ResponseInit) :
    (Response.jsonOf data init).headers.get "content-type"
      = some "application/json"
    ∧ (Response.jsonOf data init).body = some (jsonStringify data)
    ∧ jsonParse (jsonStringify data) = some data := by
  refine ⟨?_, rfl, jsonParse_stringify data⟩
  have hw : ((Headers.ofInitOpt init.headers).set "content-type"
      "application/json").WellFormed :=
    wf_set (wf_ofInitOpt init.headers) "content-type" "application/json"
  show (Headers.ofInit (.headers ((Headers.ofInitOpt init.headers).set
      "content-type" "application/json"))).get "content-type" = _
  rw [ofInit_headers_eq hw]
  exact headers_get_set _ "content-type" "application/json"

/-- C4 witness: cloning a fresh request with a header and body duplicates
it unconsumed; cloning a consumed response fails. -/
theorem C4_witness :
    (Request.mk "POST" "/x" ⟨[("a", "b")]⟩ (some "hi") false).clone
      = .ok (Request.mk "POST" "/x" ⟨[("a", "b")]⟩ (some "hi") false)
    ∧ (Response.mk 200 "OK" ⟨[]⟩ (some "hi") true).clone
      = .error (.typeError "Cannot clone a Response whose body has been used") :=
  ⟨(C4_clone.1 (Request.mk "POST" "/x" ⟨[("a", "b")]⟩ (some "hi") false)
      (by constructor <;> decide)).1 rfl,
   (C4_clone.2 (Response.mk 200 "OK" ⟨[]⟩ (some "hi") true)
      (by constructor <;> decide)).2 rfl⟩

end FetchRs
